import Mathlib

/-!
# Asus T100 multitouch touchpad driver (`drivers/input/mouse/asustouch.c`)

A shallow embedding of the packet decoder `asus_touchpad_irq` and of the
configuration handshake `asus_touchpad_hw_cfg`, followed by the properties
proved about them.

Conventions of the embedding.
* C integers are `Nat`/`Int`; bit-fields are reduced with `%` to their width
  when they are read from the receive buffer.
* The calls the driver makes to the input core are recorded, in order, as a
  list of `input_call`.
* Values supplied by the environment of one completion (transfer status,
  buffer contents, result of the re-submission) are collected in `urb_in`.
-/

namespace Asustouch

/-! ## Constants -/

/-- Source: `#define PACKAGE_LEN 0x1c`. -/
def PACKAGE_LEN : Nat := 0x1c

/-- Source: `#define MAX_TOUCHES 5`. -/
def MAX_TOUCHES : Nat := 5

/-- Source: `#define ASUS_CONFIG_LEN 5`. -/
def ASUS_CONFIG_LEN : Nat := 5

/-- Width of `unsigned long` on the 64-bit target the driver is built for. -/
def BITS_PER_LONG : Nat := 64

/-- Key code of the left button (`include/uapi/linux/input-event-codes.h`). -/
def BTN_LEFT : Nat := 0x110

/-- Key code of the right button (`include/uapi/linux/input-event-codes.h`). -/
def BTN_RIGHT : Nat := 0x111

/-- Key code of the touch flag (`include/uapi/linux/input-event-codes.h`). -/
def BTN_TOUCH : Nat := 0x14a

/-- Absolute axis code (`include/uapi/linux/input-event-codes.h`). -/
def ABS_MT_POSITION_X : Nat := 0x35

/-- Absolute axis code (`include/uapi/linux/input-event-codes.h`). -/
def ABS_MT_POSITION_Y : Nat := 0x36

/-- Tool type of a finger (`include/uapi/linux/input.h`). -/
def MT_TOOL_FINGER : Nat := 0

/-- Errno values (`include/uapi/asm-generic/errno-base.h`, `errno.h`). -/
def EPERM : Int := 1

/-- Errno value. -/
def ENOENT : Int := 2

/-- Errno value. -/
def EIO : Int := 5

/-- Errno value. -/
def ECONNRESET : Int := 104

/-- Errno value. -/
def ESHUTDOWN : Int := 108

/-! ## Data model -/

/-- The per-session fields of `struct usb_asus` that the decoder reads and
writes: `bool button_pressed; int button_val;`. -/
structure usb_asus where
  button_pressed : Bool
  button_val : Nat
  deriving DecidableEq, Repr

/-- The state `devm_kzalloc` leaves in `asus_touchpad_probe`: all zero. -/
def usb_asus.zeroed : usb_asus := { button_pressed := false, button_val := 0 }

/-- Source `struct xy` (packed, 5 bytes): `u8 yh:4; u8 xh:4; u8 xl; u8 yl; u16 unknown;`. -/
structure xy where
  yh : Nat
  xh : Nat
  xl : Nat
  yl : Nat
  unknown : Nat
  deriving DecidableEq, Repr

/-- Source `struct touchpad_package` (packed): `u8 magic; u8 button_press:1;
u8 reserved:2; u8 touches:MAX_TOUCHES; struct xy xy[MAX_TOUCHES];`. -/
structure touchpad_package where
  magic : Nat
  button_press : Nat
  reserved : Nat
  touches : Nat
  xy : List xy
  deriving DecidableEq, Repr

/-- The `u8` at offset `off` of the receive buffer. -/
def u8_at (buf : List Nat) (off : Nat) : Nat := buf.getD off 0 % 256

/-- The `struct xy` lying at byte offset `base` of the buffer. Bit-fields are
allocated from the least significant bit (little-endian ABI), so `yh` is the
low nibble and `xh` the high nibble of the first byte; `unknown` is a
little-endian `u16`. -/
def xy.of_buffer (buf : List Nat) (base : Nat) : xy :=
  { yh := u8_at buf base % 16
    xh := u8_at buf base / 16 % 16
    xl := u8_at buf (base + 1)
    yl := u8_at buf (base + 2)
    unknown := u8_at buf (base + 3) + 256 * u8_at buf (base + 4) }

/-- The view `(struct touchpad_package *)asus->int_in_buffer`: byte 0 is
`magic`; in byte 1 bit 0 is `button_press`, bits 1-2 `reserved`, bits 3-7
`touches`; slot `i` starts at byte `2 + 5 * i`. -/
def touchpad_package.of_buffer (buf : List Nat) : touchpad_package :=
  { magic := u8_at buf 0
    button_press := u8_at buf 1 % 2
    reserved := u8_at buf 1 / 2 % 4
    touches := u8_at buf 1 / 8 % 32
    xy := (List.range MAX_TOUCHES).map (fun i => xy.of_buffer buf (2 + 5 * i)) }

/-- One call made by the driver to the input core, with its arguments. -/
inductive input_call where
  | input_report_key (code : Nat) (value : Int)
  | input_mt_slot (slot : Nat)
  | input_mt_report_slot_state (tool_type : Nat) (active : Bool)
  | input_report_abs (code : Nat) (value : Int)
  | input_mt_sync_frame
  | input_mt_report_pointer_emulation (use_count : Bool)
  | input_sync
  deriving DecidableEq, Repr

/-- What the environment supplies to one run of the completion handler:
`urb->status`, the bytes of `asus->int_in_buffer`, the value returned by
`usb_submit_urb`, and `stray`, the bytes that the read
`tp->xy[button_pressed_idx]` yields when it leaves the packet (index undefined
because `touches` is 0): C leaves that read undefined, so it is a free input
of the model and every property is proved for all its values. -/
structure urb_in where
  status : Int
  int_in_buffer : List Nat
  submit_error : Int
  stray : xy
  deriving DecidableEq, Repr

/-- Observable outcome of one run of the completion handler. -/
structure irq_result where
  asus : usb_asus
  calls : List input_call
  resubmitted : Bool
  dev_err : Bool
  deriving DecidableEq, Repr

/-! ## Kernel bit helpers -/

/-- Scan of `n` bits of `w` from bit `i` upwards for the first set bit. -/
def ffs_bits : Nat → Nat → Nat → Option Nat
  | 0, _, _ => none
  | n + 1, w, i => if w % 2 = 1 then some i else ffs_bits n (w / 2) (i + 1)

/-- Kernel `__ffs(word)`: index of the least significant set bit of an
`unsigned long`; the kernel leaves the result undefined for 0, which is
`none` here. -/
def __ffs (word : Nat) : Option Nat := ffs_bits BITS_PER_LONG word 0

/-- Number of set bits among the lowest `n` bits of `w`. -/
def hweight_bits : Nat → Nat → Nat
  | 0, _ => 0
  | n + 1, w => w % 2 + hweight_bits n (w / 2)

/-- Kernel `hweight_long(w)`: number of set bits of an `unsigned long`. -/
def hweight_long (w : Nat) : Nat := hweight_bits BITS_PER_LONG w

/-! ## The packet decoder `asus_touchpad_irq` -/

/-- The slot read by `tp->xy[button_pressed_idx]` with
`button_pressed_idx = __ffs(tp->touches)`, when index and slot exist. -/
def anchor_slot (tp : touchpad_package) : Option xy :=
  match __ffs tp.touches with
  | some button_pressed_idx => tp.xy[button_pressed_idx]?
  | none => none

/-- Lines 99-116: the press edge. Returns the updated session state and the
calls made. -/
def press_edge (asus : usb_asus) (tp : touchpad_package) (stray : xy) :
    usb_asus × List input_call :=
  if tp.button_press ≠ 0 ∧ asus.button_pressed = false then
    let s := (anchor_slot tp).getD stray
    let x := (s.xh <<< 8) ||| s.xl
    let y := (s.yh <<< 8) ||| s.yl
    let button_val := if x ≥ 1024 ∧ y < 256 then BTN_RIGHT else BTN_LEFT
    ({ button_pressed := true, button_val := button_val },
      [input_call.input_report_key button_val 1])
  else
    (asus, [])

/-- Lines 119-127: the body of the slot loop for slot `i`. -/
def report_slot (tp : touchpad_package) (i : Nat) : List input_call :=
  let s := tp.xy.getD i ⟨0, 0, 0, 0, 0⟩
  [input_call.input_mt_slot i,
   input_call.input_mt_report_slot_state MT_TOOL_FINGER
     (decide ((tp.touches &&& (1 <<< i)) ≠ 0))] ++
  (if (tp.touches &&& (1 <<< i)) ≠ 0 then
    [input_call.input_report_abs ABS_MT_POSITION_X (((s.xh <<< 8) ||| s.xl : Nat) : Int),
     input_call.input_report_abs ABS_MT_POSITION_Y
       (1024 - (((s.yh <<< 8) ||| s.yl : Nat) : Int))]
  else [])

/-- Lines 118-128: `for (i = 0; i < MAX_TOUCHES; i++)`, as `n` remaining
iterations starting at `i`. -/
def slot_loop (tp : touchpad_package) : Nat → Nat → List input_call
  | 0, _ => []
  | n + 1, i => report_slot tp i ++ slot_loop tp n (i + 1)

/-- Lines 129-132: the release edge. -/
def release_edge (asus : usb_asus) (tp : touchpad_package) :
    usb_asus × List input_call :=
  if tp.button_press = 0 ∧ asus.button_pressed = true then
    ({ asus with button_pressed := false },
      [input_call.input_report_key asus.button_val 0])
  else
    (asus, [])

/-- Lines 134-137: touch flag and end of frame. -/
def frame_end (tp : touchpad_package) : List input_call :=
  [input_call.input_report_key BTN_TOUCH (if hweight_long tp.touches > 0 then 1 else 0),
   input_call.input_mt_sync_frame,
   input_call.input_mt_report_pointer_emulation false,
   input_call.input_sync]

/-- Lines 139-144: `resubmit:`; `dev_err` is called when `usb_submit_urb`
fails with anything but `-EPERM`. -/
def resubmit (asus : usb_asus) (calls : List input_call) (error : Int) : irq_result :=
  { asus := asus, calls := calls, resubmitted := true,
    dev_err := decide (error ≠ 0 ∧ error ≠ -EPERM) }

/-- The completion handler `asus_touchpad_irq` (lines 77-145). -/
def asus_touchpad_irq (asus : usb_asus) (urb : urb_in) : irq_result :=
  let tp := touchpad_package.of_buffer urb.int_in_buffer
  if urb.status = 0 then
    let p := press_edge asus tp urb.stray
    let r := release_edge p.1 tp
    resubmit r.1 (p.2 ++ slot_loop tp MAX_TOUCHES 0 ++ r.2 ++ frame_end tp) urb.submit_error
  else if urb.status = -ECONNRESET ∨ urb.status = -ENOENT ∨ urb.status = -ESHUTDOWN then
    { asus := asus, calls := [], resubmitted := false, dev_err := false }
  else
    resubmit asus [] urb.submit_error

/-- The handler run on successive completions, threading the session state;
one result per completion. -/
def irq_run (asus : usb_asus) : List urb_in → List irq_result
  | [] => []
  | u :: us => asus_touchpad_irq asus u :: irq_run (asus_touchpad_irq asus u).asus us

/-- A completed transfer (`urb->status == 0`) carrying `buf`. -/
def completed (buf : List Nat) (stray : xy) : urb_in :=
  { status := 0, int_in_buffer := buf, submit_error := 0, stray := stray }

/-! ## The configuration handshake `asus_touchpad_hw_cfg` -/

/-- Source: `static u8 touchpad_configuration0[]`. -/
def touchpad_configuration0 : List Nat := [0x0d, 0x00, 0x03, 0x01, 0x00]

/-- Source: `static u8 touchpad_configuration1[]`. -/
def touchpad_configuration1 : List Nat := [0x0d, 0x05, 0x03, 0x06, 0x01]

/-- Source: `static u8 touchpad_configuration2[]`. -/
def touchpad_configuration2 : List Nat := [0x0d, 0x05, 0x03, 0x07, 0x01]

/-- Source: `static u8 touchpad_configuration3[]`. -/
def touchpad_configuration3 : List Nat := [0x0d, 0x00, 0x03, 0x01, 0x00]

/-- One control transfer issued through `usb_control_msg`: an OUT transfer
(`usb_sndctrlpipe`, `USB_REQ_SET_CONFIGURATION`) with the bytes sent, or an IN
transfer (`usb_rcvctrlpipe`, `USB_REQ_CLEAR_FEATURE`) with the size asked for. -/
inductive ctrl_msg where
  | write (payload : List Nat)
  | read (size : Nat)
  deriving DecidableEq, Repr

/-- The control channel as the driver sees it: for the `n`-th control transfer
of the session (counted from 0), `ret n` is the value `usb_control_msg`
returns (bytes transferred, or a negative errno) and `rx n` the bytes the
device delivers if that transfer is an IN transfer. -/
structure ctrl_chan where
  ret : Nat → Int
  rx : Nat → List Nat

/-- The call `memcpy(buf, data, size)` on byte lists. -/
def memcpy (buf data : List Nat) (size : Nat) : List Nat :=
  data.take size ++ buf.drop size

/-- Function `hw_write` (lines 148-167). `log` is the list of control transfers issued
so far; the result is the return value, the buffer and the extended log. -/
def hw_write (ch : ctrl_chan) (log : List ctrl_msg) (buf data : List Nat) (size : Nat) :
    Int × List Nat × List ctrl_msg :=
  let buf := memcpy buf data size
  let s := ch.ret log.length
  let log1 := log ++ [ctrl_msg.write (buf.take size)]
  if s ≠ (size : Int) then (- EIO, buf, log1) else (0, buf, log1)

/-- Function `hw_read` (lines 169-183): the device fills at most `size` bytes of
`data`. -/
def hw_read (ch : ctrl_chan) (log : List ctrl_msg) (data : List Nat) (size : Nat) :
    Int × List Nat × List ctrl_msg :=
  let got := (ch.rx log.length).take size
  let s := ch.ret log.length
  let data1 := got ++ data.drop got.length
  let log1 := log ++ [ctrl_msg.read size]
  if s ≠ (size : Int) then (- EIO, data1, log1) else (0, data1, log1)

/-- Function `asus_touchpad_hw_cfg` (lines 185-212). `buf` is the initial content of
the uninitialised local `u8 buf[ASUS_CONFIG_LEN]`; the result is the return
value and the log of control transfers. -/
def asus_touchpad_hw_cfg (ch : ctrl_chan) (log : List ctrl_msg) (buf : List Nat) :
    Int × List ctrl_msg :=
  let w0 := hw_write ch log buf touchpad_configuration0 touchpad_configuration0.length
  if w0.1 ≠ 0 then (- EIO, w0.2.2) else
  let w1 := hw_write ch w0.2.2 w0.2.1 touchpad_configuration1 touchpad_configuration1.length
  if w1.1 ≠ 0 then (- EIO, w1.2.2) else
  let r1 := hw_read ch w1.2.2 w1.2.1 ASUS_CONFIG_LEN
  if r1.1 ≠ 0 then (- EIO, r1.2.2) else
  let w2 := hw_write ch r1.2.2 r1.2.1 touchpad_configuration2 touchpad_configuration2.length
  if w2.1 ≠ 0 then (- EIO, w2.2.2) else
  let r2 := hw_read ch w2.2.2 w2.2.1 ASUS_CONFIG_LEN
  if r2.1 ≠ 0 then (- EIO, r2.2.2) else
  let w3 := hw_write ch r2.2.2 r2.2.1 touchpad_configuration3 touchpad_configuration3.length
  if w3.1 ≠ 0 then (- EIO, w3.2.2) else
  (0, w3.2.2)

/-- The six steps of the handshake in the order of section 4.1 of the
specification: payloads A and B, a 5-byte read, payload C, a 5-byte read,
payload D. -/
def handshake_steps : List ctrl_msg :=
  [ctrl_msg.write [0x0d, 0x00, 0x03, 0x01, 0x00],
   ctrl_msg.write [0x0d, 0x05, 0x03, 0x06, 0x01],
   ctrl_msg.read 5,
   ctrl_msg.write [0x0d, 0x05, 0x03, 0x07, 0x01],
   ctrl_msg.read 5,
   ctrl_msg.write [0x0d, 0x00, 0x03, 0x01, 0x00]]

/-! ## Observations on the recorded calls -/

/-- The button edge a call reports, if any: every key report except the one
on `BTN_TOUCH`, as the pair (button, value), value 1 for a press and 0 for a
release. -/
def key_edge : input_call → Option (Nat × Int)
  | input_call.input_report_key code value =>
      if code = BTN_TOUCH then none else some (code, value)
  | _ => none

/-- The button edges among the calls, in order. -/
def button_edges (calls : List input_call) : List (Nat × Int) :=
  calls.filterMap key_edge

/-- The pair the decoder forms from a slot: `(xh << 8) | xl` and
`(yh << 8) | yl`. -/
def slot_xy (s : xy) : Nat × Nat := ((s.xh <<< 8) ||| s.xl, (s.yh <<< 8) ||| s.yl)

/-- The values of the locals `x` and `y` of the press branch when it runs on
the packet of `u`. -/
def press_xy (u : urb_in) : Nat × Nat :=
  slot_xy ((anchor_slot (touchpad_package.of_buffer u.int_in_buffer)).getD u.stray)

/-- The button the press branch latches for given `x` and `y`
(lines 110-113). -/
def button_for (p : Nat × Nat) : Nat :=
  if p.1 ≥ 1024 ∧ p.2 < 256 then BTN_RIGHT else BTN_LEFT

/-- The `buttonPress` bit of the packet carried by a completion. -/
def press_bit (u : urb_in) : Bool :=
  decide ((touchpad_package.of_buffer u.int_in_buffer).button_press ≠ 0)

/-- The 5-bit `touches` mask of the packet carried by a completion. -/
def touch_mask (u : urb_in) : Nat :=
  (touchpad_package.of_buffer u.int_in_buffer).touches

/-- The value of the edge the state machine of section 4.2 emits for one
packet: `[1]` (press) when the bit goes 0 to 1, `[0]` (release) when it goes
1 to 0, nothing while it stays. -/
def edge_of (latched bit : Bool) : List Int :=
  if latched = false ∧ bit = true then [1]
  else if latched = true ∧ bit = false then [0]
  else []

/-- The edges of a run of the state machine over the `buttonPress` bits of
successive packets; the latched flag after a packet is that packet's bit. -/
def edges_of : Bool → List Bool → List (List Int)
  | _, [] => []
  | latched, bit :: bits => edge_of latched bit :: edges_of bit bits

/-! ## Further observations and the concrete inputs of the examples -/

/-- In every state the decoder reaches, a latched button is left or right. -/
def latched_ok (asus : usb_asus) : Prop :=
  asus.button_pressed = true → asus.button_val = BTN_LEFT ∨ asus.button_val = BTN_RIGHT

/-- A packet with the given `buttonPress` bit, slot 0 touched at raw
`x = 1500 = 0x5dc`, raw `y = 100 = 0x064`. -/
def packet_1500_100 (press : Nat) : urb_in :=
  completed [0x5d, 8 + press, 0x50, 0xdc, 0x64, 0, 0] ⟨0, 0, 0, 0, 0⟩

/-- The sequence of section 8: `buttonPress` bits `[1,1,1,0,0,1]`. -/
def press_sequence : List urb_in :=
  [1, 1, 1, 0, 0, 1].map packet_1500_100

/-- A packet with the given `buttonPress` bit whose slot 0 is reported in the
frame at `(1500, 100)`: raw `x = 1500 = 0x5dc`, raw `y = 924 = 0x39c`. -/
def packet_decoded_1500_100 (press : Nat) : urb_in :=
  completed [0x5d, 8 + press, 0x53, 0xdc, 0x9c, 0, 0] ⟨0, 0, 0, 0, 0⟩

/-- The `buttonPress` bits `[1,1,1,0,0,1]` on packets whose slot 0 is reported
at `(1500, 100)`. -/
def decoded_sequence : List urb_in :=
  [1, 1, 1, 0, 0, 1].map packet_decoded_1500_100

/-- The calls addressed to slot `i`: the presence and coordinate reports made
while slot `i` is the one selected by the last `input_mt_slot`. The flag says
whether slot `i` is selected at the start of the list. -/
def slot_calls (i : Nat) : Bool → List input_call → List input_call
  | _, [] => []
  | sel, c :: cs =>
    match c with
    | input_call.input_mt_slot j => slot_calls i (decide (j = i)) cs
    | input_call.input_mt_report_slot_state _ _ =>
        if sel then c :: slot_calls i sel cs else slot_calls i sel cs
    | input_call.input_report_abs _ _ =>
        if sel then c :: slot_calls i sel cs else slot_calls i sel cs
    | _ => slot_calls i sel cs

/-- A packet with slot 0 touched whose first slot byte is `0x0f`: high nibble
(`xh`) 0, low nibble (`yh`) 15, `xl = 7`, `yl = 0xff`, so raw Y is 4095. -/
def packet_raw_y_4095 : urb_in :=
  completed [0x5d, 8, 0x0f, 7, 0xff, 0x34, 0x12] ⟨0, 0, 0, 0, 0⟩

/-- A packet with no touch and the `buttonPress` bit set. -/
def packet_press_no_touch : urb_in :=
  completed [0x5d, 1, 0x50, 0xdc, 0x64, 0, 0] ⟨0, 0, 0, 0, 0⟩

/-- The update of one slot as the touch-event sink sees it: the slot is
selected, its presence is reported and, when it is active, its X and Y
follow. -/
def slot_block (i : Nat) (active : Bool) (x y : Int) : List input_call :=
  input_call.input_mt_slot i ::
  input_call.input_mt_report_slot_state MT_TOOL_FINGER active ::
  (if active = true then
    [input_call.input_report_abs ABS_MT_POSITION_X x,
     input_call.input_report_abs ABS_MT_POSITION_Y y]
   else [])

/-- The same completion with other bytes behind an out-of-packet anchor
read. -/
def with_stray (u : urb_in) (stray : xy) : urb_in := { u with stray := stray }

/-- The button edges of a run, in the order in which they are emitted. -/
def run_edges : List irq_result → List (Nat × Int)
  | [] => []
  | r :: rs => button_edges r.calls ++ run_edges rs

/-- A list of button edges that alternates press and release of one and the
same button, started with `some b` when `b` is latched and `none` when no
button is. -/
def paired : Option Nat → List (Nat × Int) → Prop
  | _, [] => True
  | none, e :: es => e.2 = 1 ∧ paired (some e.1) es
  | some b, e :: es => e.2 = 0 ∧ e.1 = b ∧ paired none es

/-- The latched button of a session state, if any. -/
def latched (asus : usb_asus) : Option Nat :=
  if asus.button_pressed = true then some asus.button_val else none

/-- A packet with `buttonPress = 1` whose only touch, in slot 1, lies in the
left zone: raw `x = 0x123`, raw `y = 0x345`. -/
def packet_other_finger : urb_in :=
  completed [0x5d, 0x11, 0, 0, 0, 0, 0, 0x13, 0x23, 0x45, 0, 0] ⟨0, 0, 0, 0, 0⟩

/-- The same completion with the magic byte (byte 0 of the buffer) replaced
by `m`. -/
def with_magic (u : urb_in) (m : Nat) : urb_in :=
  { u with int_in_buffer := m :: u.int_in_buffer.tail }

/-- The packet of `packet_1500_100 1` with magic byte `0x00` instead of
`0x5d`. -/
def packet_bad_magic : urb_in := with_magic (packet_1500_100 1) 0x00

/-- A control channel that transfers 3 bytes on the second step and 5 bytes
on every other step. -/
def short_second_step : ctrl_chan :=
  { ret := fun n => if n = 1 then 3 else 5, rx := fun _ => [1, 2, 3, 4, 5] }

/-- A control channel on which every transfer moves 5 bytes. -/
def always_five : ctrl_chan :=
  { ret := fun _ => 5, rx := fun n => [n, n, n, n, n] }

/-! ## Auxiliary lemmas -/

theorem shl8_or (a b : Nat) (hb : b < 256) : (a <<< 8) ||| b = a * 256 + b := by
  have h := Nat.mul_add_lt_is_or (show b < 2 ^ 8 by simpa using hb) a
  rw [Nat.shiftLeft_eq, Nat.mul_comm a (2 ^ 8), ← h]

theorem and_bit_ne_zero (t i : Nat) : (t &&& (1 <<< i)) ≠ 0 ↔ t.testBit i = true := by
  rw [Nat.one_shiftLeft, Nat.and_two_pow]
  cases h : t.testBit i <;> simp

theorem u8_at_lt (buf : List Nat) (off : Nat) : u8_at buf off < 256 := by
  unfold u8_at; omega

theorem touches_lt (buf : List Nat) : (touchpad_package.of_buffer buf).touches < 32 := by
  simp only [touchpad_package.of_buffer]; omega

theorem button_edges_append (a b : List input_call) :
    button_edges (a ++ b) = button_edges a ++ button_edges b := by
  simp [button_edges]

theorem button_edges_report_slot (tp : touchpad_package) (i : Nat) :
    button_edges (report_slot tp i) = [] := by
  unfold report_slot
  split <;> simp [button_edges, key_edge]

theorem button_edges_slot_loop (tp : touchpad_package) (n i : Nat) :
    button_edges (slot_loop tp n i) = [] := by
  induction n generalizing i with
  | zero => rfl
  | succ n ih => simp [slot_loop, button_edges_append, button_edges_report_slot, ih]

theorem button_edges_frame_end (tp : touchpad_package) :
    button_edges (frame_end tp) = [] := by
  simp [frame_end, button_edges, key_edge]

/-- The button the press edge latches for the slot `s` it reads. -/
theorem press_edge_fst_val (asus : usb_asus) (tp : touchpad_package) (stray : xy) :
    (press_edge asus tp stray).1.button_val = BTN_LEFT ∨
    (press_edge asus tp stray).1.button_val = BTN_RIGHT ∨
    (press_edge asus tp stray).1 = asus := by
  unfold press_edge
  split
  · simp only; split <;> simp
  · simp

theorem irq_press (asus : usb_asus) (u : urb_in) (hs : u.status = 0)
    (hp : asus.button_pressed = false) (hb : press_bit u = true) :
    (asus_touchpad_irq asus u).asus =
      (press_edge asus (touchpad_package.of_buffer u.int_in_buffer) u.stray).1 ∧
    (press_edge asus (touchpad_package.of_buffer u.int_in_buffer) u.stray).1.button_pressed
      = true ∧
    (asus_touchpad_irq asus u).calls =
      input_call.input_report_key
        (press_edge asus (touchpad_package.of_buffer u.int_in_buffer) u.stray).1.button_val 1 ::
      (slot_loop (touchpad_package.of_buffer u.int_in_buffer) MAX_TOUCHES 0 ++
        frame_end (touchpad_package.of_buffer u.int_in_buffer)) := by
  simp only [press_bit, decide_eq_true_eq] at hb
  simp [asus_touchpad_irq, hs, resubmit, press_edge, release_edge, hp, hb]

theorem irq_release (asus : usb_asus) (u : urb_in) (hs : u.status = 0)
    (hp : asus.button_pressed = true) (hb : press_bit u = false) :
    (asus_touchpad_irq asus u).asus = { asus with button_pressed := false } ∧
    (asus_touchpad_irq asus u).calls =
      slot_loop (touchpad_package.of_buffer u.int_in_buffer) MAX_TOUCHES 0 ++
        input_call.input_report_key asus.button_val 0 ::
        frame_end (touchpad_package.of_buffer u.int_in_buffer) := by
  simp only [press_bit, decide_eq_false_iff_not, ne_eq, not_not] at hb
  simp [asus_touchpad_irq, hs, resubmit, press_edge, release_edge, hp, hb]

theorem irq_hold (asus : usb_asus) (u : urb_in) (hs : u.status = 0)
    (hb : press_bit u = asus.button_pressed) :
    (asus_touchpad_irq asus u).asus = asus ∧
    (asus_touchpad_irq asus u).calls =
      slot_loop (touchpad_package.of_buffer u.int_in_buffer) MAX_TOUCHES 0 ++
        frame_end (touchpad_package.of_buffer u.int_in_buffer) := by
  cases hp : asus.button_pressed
  · rw [hp] at hb
    simp only [press_bit, decide_eq_false_iff_not, ne_eq, not_not] at hb
    simp [asus_touchpad_irq, hs, resubmit, press_edge, release_edge, hp, hb]
  · rw [hp] at hb
    simp only [press_bit, decide_eq_true_eq] at hb
    simp [asus_touchpad_irq, hs, resubmit, press_edge, release_edge, hp, hb]

theorem press_edge_val (asus : usb_asus) (u : urb_in)
    (hp : asus.button_pressed = false) (hb : press_bit u = true) :
    (press_edge asus (touchpad_package.of_buffer u.int_in_buffer) u.stray).1 =
      ⟨true, button_for (press_xy u)⟩ := by
  simp only [press_bit, decide_eq_true_eq] at hb
  simp [press_edge, hp, hb, button_for, press_xy, slot_xy]

theorem button_for_ne_touch (p : Nat × Nat) : button_for p ≠ BTN_TOUCH := by
  unfold button_for; split <;> decide

theorem button_for_cases (p : Nat × Nat) :
    button_for p = BTN_LEFT ∨ button_for p = BTN_RIGHT := by
  unfold button_for; split <;> simp

/-- The session state after a completed transfer, by cases on the latched
flag and the `buttonPress` bit. -/
theorem irq_state (asus : usb_asus) (u : urb_in) (hs : u.status = 0) :
    (asus_touchpad_irq asus u).asus =
      if asus.button_pressed = false ∧ press_bit u = true then ⟨true, button_for (press_xy u)⟩
      else if asus.button_pressed = true ∧ press_bit u = false then ⟨false, asus.button_val⟩
      else asus := by
  cases hp : asus.button_pressed <;> cases hb : press_bit u
  · simpa using (irq_hold asus u hs (by rw [hp, hb])).1
  · rw [(irq_press asus u hs hp hb).1, press_edge_val asus u hp hb]; simp
  · rw [(irq_release asus u hs hp hb).1]; simp
  · simpa using (irq_hold asus u hs (by rw [hp, hb])).1

/-- The button edges of a completed transfer, by cases on the latched flag and
the `buttonPress` bit. -/
theorem irq_edges (asus : usb_asus) (u : urb_in) (hs : u.status = 0)
    (hv : asus.button_pressed = true → asus.button_val ≠ BTN_TOUCH) :
    button_edges (asus_touchpad_irq asus u).calls =
      if asus.button_pressed = false ∧ press_bit u = true then [(button_for (press_xy u), 1)]
      else if asus.button_pressed = true ∧ press_bit u = false then [(asus.button_val, 0)]
      else [] := by
  cases hp : asus.button_pressed <;> cases hb : press_bit u
  · rw [(irq_hold asus u hs (by rw [hp, hb])).2]
    simp [button_edges_append, button_edges_slot_loop, button_edges_frame_end]
  · rw [(irq_press asus u hs hp hb).2.2, press_edge_val asus u hp hb]
    have := button_for_ne_touch (press_xy u)
    have h2 := button_edges_append
      (slot_loop (touchpad_package.of_buffer u.int_in_buffer) MAX_TOUCHES 0)
      (frame_end (touchpad_package.of_buffer u.int_in_buffer))
    rw [button_edges_slot_loop, button_edges_frame_end] at h2
    simp only [button_edges] at h2 ⊢
    simp [List.filterMap_cons, key_edge, this, h2]
  · rw [(irq_release asus u hs hp hb).2, button_edges_append, button_edges_slot_loop]
    have h2 := button_edges_frame_end (touchpad_package.of_buffer u.int_in_buffer)
    simp only [button_edges] at h2 ⊢
    simp [List.filterMap_cons, key_edge, hv hp, h2]
  · rw [(irq_hold asus u hs (by rw [hp, hb])).2]
    simp [button_edges_append, button_edges_slot_loop, button_edges_frame_end]

theorem latched_ok_ne_touch (asus : usb_asus) (h : latched_ok asus) :
    asus.button_pressed = true → asus.button_val ≠ BTN_TOUCH := by
  intro hp
  rcases h hp with h | h <;> rw [h] <;> decide

theorem latched_ok_irq (asus : usb_asus) (u : urb_in) (hs : u.status = 0)
    (h : latched_ok asus) : latched_ok (asus_touchpad_irq asus u).asus := by
  rw [irq_state asus u hs]
  split
  · intro _; exact button_for_cases _
  · split
    · intro hp; simp at hp
    · exact h

theorem irq_pressed (asus : usb_asus) (u : urb_in) (hs : u.status = 0) :
    (asus_touchpad_irq asus u).asus.button_pressed = press_bit u := by
  rw [irq_state asus u hs]
  cases hp : asus.button_pressed <;> cases hb : press_bit u <;> simp [hp]

theorem irq_edge_values (asus : usb_asus) (u : urb_in) (hs : u.status = 0)
    (h : latched_ok asus) :
    (button_edges (asus_touchpad_irq asus u).calls).map Prod.snd =
      edge_of asus.button_pressed (press_bit u) := by
  rw [irq_edges asus u hs (latched_ok_ne_touch asus h)]
  cases hp : asus.button_pressed <;> cases hb : press_bit u <;> simp [edge_of]

theorem irq_edge_buttons (asus : usb_asus) (u : urb_in) (hs : u.status = 0)
    (h : latched_ok asus) :
    ∀ e ∈ button_edges (asus_touchpad_irq asus u).calls, e.1 = BTN_LEFT ∨ e.1 = BTN_RIGHT := by
  rw [irq_edges asus u hs (latched_ok_ne_touch asus h)]
  intro e he
  split at he
  · simp only [List.mem_singleton] at he; rw [he]; exact button_for_cases _
  · split at he
    · rename_i h2
      simp only [List.mem_singleton] at he; rw [he]; exact h h2.1
    · simp at he

theorem irq_run_machine (us : List urb_in) :
    ∀ asus : usb_asus, latched_ok asus → (∀ u ∈ us, u.status = 0) →
      (irq_run asus us).map (fun r => r.asus.button_pressed) = us.map press_bit ∧
      (irq_run asus us).map (fun r => (button_edges r.calls).map Prod.snd) =
        edges_of asus.button_pressed (us.map press_bit) ∧
      ∀ r ∈ irq_run asus us, ∀ e ∈ button_edges r.calls,
        e.1 = BTN_LEFT ∨ e.1 = BTN_RIGHT := by
  induction us with
  | nil => intro asus _ _; simp [irq_run, edges_of]
  | cons u us ih =>
    intro asus hok hs
    have hu : u.status = 0 := hs u (List.mem_cons_self _ _)
    have ht : ∀ v ∈ us, v.status = 0 := fun v hv => hs v (List.mem_cons_of_mem _ hv)
    obtain ⟨h1, h2, h3⟩ := ih (asus_touchpad_irq asus u).asus (latched_ok_irq asus u hu hok) ht
    refine ⟨?_, ?_, ?_⟩
    · simp only [irq_run, List.map_cons, h1, irq_pressed asus u hu]
    · simp only [irq_run, List.map_cons, h2, irq_pressed asus u hu, edges_of,
        irq_edge_values asus u hu hok]
    · intro r hr
      simp only [irq_run, List.mem_cons] at hr
      rcases hr with hr | hr
      · rw [hr]; exact irq_edge_buttons asus u hu hok
      · exact h3 r hr

theorem press_xy_of_anchor (u : urb_in) (p : Nat × Nat)
    (h : (anchor_slot (touchpad_package.of_buffer u.int_in_buffer)).map slot_xy = some p) :
    press_xy u = p := by
  unfold press_xy
  cases ha : anchor_slot (touchpad_package.of_buffer u.int_in_buffer) with
  | none => rw [ha] at h; simp at h
  | some s => rw [ha] at h; simpa using h

/-- One completed transfer whose press branch, if taken, sees `(1500, 100)`. -/
theorem irq_step_1500_100 (asus : usb_asus) (u : urb_in) (hs : u.status = 0)
    (hok : latched_ok asus) (hxy : press_xy u = (1500, 100)) :
    (asus_touchpad_irq asus u).asus =
      (if asus.button_pressed = false ∧ press_bit u = true then ⟨true, BTN_RIGHT⟩
       else if asus.button_pressed = true ∧ press_bit u = false then ⟨false, asus.button_val⟩
       else asus) ∧
    button_edges (asus_touchpad_irq asus u).calls =
      (if asus.button_pressed = false ∧ press_bit u = true then [(BTN_RIGHT, 1)]
       else if asus.button_pressed = true ∧ press_bit u = false then [(asus.button_val, 0)]
       else []) := by
  have hr : button_for (1500, 100) = BTN_RIGHT := by decide
  rw [irq_state asus u hs, irq_edges asus u hs (latched_ok_ne_touch asus hok), hxy, hr]
  exact ⟨rfl, rfl⟩

theorem slot_calls_frame_end (i : Nat) (sel : Bool) (tp : touchpad_package) :
    slot_calls i sel (frame_end tp) = [] := by
  simp [frame_end, slot_calls]

theorem slot_calls_key (i : Nat) (sel : Bool) (code : Nat) (v : Int) (cs : List input_call) :
    slot_calls i sel (input_call.input_report_key code v :: cs) = slot_calls i sel cs := by
  simp [slot_calls]

theorem slot_calls_report_slot (i : Nat) (sel : Bool) (tp : touchpad_package) (j : Nat)
    (rest : List input_call) :
    slot_calls i sel (report_slot tp j ++ rest) =
      if j = i then (report_slot tp j).tail ++ slot_calls i true rest
      else slot_calls i false rest := by
  unfold report_slot
  by_cases hji : j = i
  · subst hji
    by_cases hb : (tp.touches &&& (1 <<< j)) = 0 <;> simp [slot_calls, hb]
  · by_cases hb : (tp.touches &&& (1 <<< j)) = 0 <;> simp [slot_calls, hji, hb]

theorem slot_calls_loop (i : Nat) (tp : touchpad_package) (rest : List input_call)
    (hrest : ∀ sel, slot_calls i sel rest = []) (n : Nat) :
    ∀ (j : Nat) (sel : Bool), slot_calls i sel (slot_loop tp n j ++ rest) =
      if j ≤ i ∧ i < j + n then (report_slot tp i).tail else [] := by
  induction n with
  | zero =>
    intro j sel
    have : ¬ (j ≤ i ∧ i < j + 0) := by omega
    simp [slot_loop, hrest, this]
  | succ n ih =>
    intro j sel
    rw [slot_loop, List.append_assoc, slot_calls_report_slot, ih, ih]
    by_cases hji : j = i
    · subst hji
      have h1 : ¬ (j + 1 ≤ j ∧ j < j + 1 + n) := by omega
      have h2 : j ≤ j ∧ j < j + (n + 1) := by omega
      simp [h1, h2]
    · by_cases hc : j + 1 ≤ i ∧ i < j + 1 + n
      · have h2 : j ≤ i ∧ i < j + (n + 1) := by omega
        simp [hji, hc, h2]
      · have h2 : ¬ (j ≤ i ∧ i < j + (n + 1)) := by omega
        simp [hji, hc, h2]

theorem irq_calls (asus : usb_asus) (u : urb_in) (hs : u.status = 0) :
    (asus_touchpad_irq asus u).calls =
      (press_edge asus (touchpad_package.of_buffer u.int_in_buffer) u.stray).2 ++
      (slot_loop (touchpad_package.of_buffer u.int_in_buffer) MAX_TOUCHES 0 ++
        ((release_edge (press_edge asus (touchpad_package.of_buffer u.int_in_buffer)
            u.stray).1 (touchpad_package.of_buffer u.int_in_buffer)).2 ++
          frame_end (touchpad_package.of_buffer u.int_in_buffer))) := by
  simp [asus_touchpad_irq, hs, resubmit]

theorem slot_calls_keys_prefix (i : Nat) (sel : Bool) (asus : usb_asus)
    (tp : touchpad_package) (stray : xy) (cs : List input_call) :
    slot_calls i sel ((press_edge asus tp stray).2 ++ cs) = slot_calls i sel cs := by
  unfold press_edge
  split <;> simp [slot_calls]

theorem slot_calls_release (i : Nat) (sel : Bool) (asus : usb_asus)
    (tp : touchpad_package) :
    slot_calls i sel ((release_edge asus tp).2 ++ frame_end tp) = [] := by
  unfold release_edge
  split <;> simp [slot_calls, frame_end]

/-- The calls addressed to slot `i < MAX_TOUCHES` in the frame of one
completed transfer are those of the loop body for `i`, after the slot
selection. -/
theorem irq_slot_calls (asus : usb_asus) (u : urb_in) (hs : u.status = 0) (i : Nat)
    (hi : i < MAX_TOUCHES) :
    slot_calls i false (asus_touchpad_irq asus u).calls =
      (report_slot (touchpad_package.of_buffer u.int_in_buffer) i).tail := by
  rw [irq_calls asus u hs, slot_calls_keys_prefix,
    slot_calls_loop i _ _ (fun sel => slot_calls_release i sel _ _)]
  have : 0 ≤ i ∧ i < 0 + MAX_TOUCHES := by omega
  rw [if_pos this]

theorem ffs_five_bits : ∀ t < 32, t ≠ 0 →
    ∃ idx < 5, __ffs t = some idx ∧ t.testBit idx = true ∧ ∀ j < idx, t.testBit j = false := by
  decide

theorem xy_getElem (buf : List Nat) (i : Nat) (hi : i < MAX_TOUCHES) :
    (touchpad_package.of_buffer buf).xy[i]? = some (xy.of_buffer buf (2 + 5 * i)) := by
  simp [touchpad_package.of_buffer, List.getElem?_map, List.getElem?_range hi]

theorem xy_getD (buf : List Nat) (i : Nat) (hi : i < MAX_TOUCHES) (d : xy) :
    (touchpad_package.of_buffer buf).xy.getD i d = xy.of_buffer buf (2 + 5 * i) := by
  rw [List.getD_eq_getElem?_getD, xy_getElem buf i hi]; rfl

theorem slot_x_eq (buf : List Nat) (base : Nat) :
    ((xy.of_buffer buf base).xh <<< 8) ||| (xy.of_buffer buf base).xl =
      u8_at buf base / 16 % 16 * 256 + u8_at buf (base + 1) := by
  simp only [xy.of_buffer]
  rw [shl8_or _ _ (u8_at_lt _ _)]

theorem slot_y_eq (buf : List Nat) (base : Nat) :
    ((xy.of_buffer buf base).yh <<< 8) ||| (xy.of_buffer buf base).yl =
      u8_at buf base % 16 * 256 + u8_at buf (base + 2) := by
  simp only [xy.of_buffer]
  rw [shl8_or _ _ (u8_at_lt _ _)]

/-- The calls addressed to slot `i` in the frame of a completed transfer, in
terms of the bytes of the packet. -/
theorem irq_slot_calls_bytes (asus : usb_asus) (u : urb_in) (hs : u.status = 0) (i : Nat)
    (hi : i < MAX_TOUCHES) :
    slot_calls i false (asus_touchpad_irq asus u).calls =
      if (touch_mask u).testBit i = true then
        [input_call.input_mt_report_slot_state MT_TOOL_FINGER true,
         input_call.input_report_abs ABS_MT_POSITION_X
           ((u8_at u.int_in_buffer (2 + 5 * i) / 16 % 16 * 256
              + u8_at u.int_in_buffer (2 + 5 * i + 1) : Nat) : Int),
         input_call.input_report_abs ABS_MT_POSITION_Y
           (1024 - ((u8_at u.int_in_buffer (2 + 5 * i) % 16 * 256
              + u8_at u.int_in_buffer (2 + 5 * i + 2) : Nat) : Int))]
      else [input_call.input_mt_report_slot_state MT_TOOL_FINGER false] := by
  rw [irq_slot_calls asus u hs i hi]
  unfold report_slot
  simp only [xy_getD _ i hi, slot_x_eq, slot_y_eq, and_bit_ne_zero, touch_mask]
  split <;> simp_all

/-- C3. Per-slot coordinate decode on a completed transfer: for a slot
`i < 5` whose bit is set in `touches`, the calls addressed to the slot are the
presence report followed by X = (high nibble of the slot's first byte) * 256 +
X low byte, which lies in [0, 4095], and Y = 1024 - rawY as a signed integer,
rawY = (low nibble of the first byte) * 256 + Y low byte; Y is not clamped
(in [0, 1024] when rawY <= 1024, negative when rawY > 1024); the reports of
the slot are the same for any other packet and session state that agree on
the slot's first three bytes, so the `unknown` field has no influence. -/
theorem slot_coordinate_decode (asus : usb_asus) (u : urb_in) (hs : u.status = 0)
    (i : Nat) (hi : i < MAX_TOUCHES) (hb : (touch_mask u).testBit i = true) :
    ∃ X rawY : Nat,
      X = u8_at u.int_in_buffer (2 + 5 * i) / 16 * 256 + u8_at u.int_in_buffer (2 + 5 * i + 1) ∧
      rawY = u8_at u.int_in_buffer (2 + 5 * i) % 16 * 256
        + u8_at u.int_in_buffer (2 + 5 * i + 2) ∧
      slot_calls i false (asus_touchpad_irq asus u).calls =
        [input_call.input_mt_report_slot_state MT_TOOL_FINGER true,
         input_call.input_report_abs ABS_MT_POSITION_X (X : Int),
         input_call.input_report_abs ABS_MT_POSITION_Y (1024 - (rawY : Int))] ∧
      X ≤ 4095 ∧ rawY ≤ 4095 ∧
      (rawY ≤ 1024 → 0 ≤ 1024 - (rawY : Int) ∧ 1024 - (rawY : Int) ≤ 1024) ∧
      (rawY > 1024 → 1024 - (rawY : Int) < 0) ∧
      ∀ (asus1 : usb_asus) (u1 : urb_in), u1.status = 0 →
        (touch_mask u1).testBit i = true →
        u8_at u1.int_in_buffer (2 + 5 * i) = u8_at u.int_in_buffer (2 + 5 * i) →
        u8_at u1.int_in_buffer (2 + 5 * i + 1) = u8_at u.int_in_buffer (2 + 5 * i + 1) →
        u8_at u1.int_in_buffer (2 + 5 * i + 2) = u8_at u.int_in_buffer (2 + 5 * i + 2) →
        slot_calls i false (asus_touchpad_irq asus1 u1).calls =
          slot_calls i false (asus_touchpad_irq asus u).calls := by
  have h0 := u8_at_lt u.int_in_buffer (2 + 5 * i)
  have h1 := u8_at_lt u.int_in_buffer (2 + 5 * i + 1)
  have h2 := u8_at_lt u.int_in_buffer (2 + 5 * i + 2)
  have hx : u8_at u.int_in_buffer (2 + 5 * i) / 16 % 16 =
      u8_at u.int_in_buffer (2 + 5 * i) / 16 := by omega
  refine ⟨_, _, rfl, rfl, ?_, by omega, by omega, by omega, by omega, ?_⟩
  · rw [irq_slot_calls_bytes asus u hs i hi, if_pos hb, hx]
  · intro asus1 u1 hs1 hb1 e0 e1 e2
    rw [irq_slot_calls_bytes asus u hs i hi, irq_slot_calls_bytes asus1 u1 hs1 i hi,
      if_pos hb, if_pos hb1, e0, e1, e2]

theorem slot_coordinate_decode_witness :
    ∃ X rawY : Nat,
      X = 7 ∧ rawY = 4095 ∧
      slot_calls 0 false (asus_touchpad_irq usb_asus.zeroed packet_raw_y_4095).calls =
        [input_call.input_mt_report_slot_state MT_TOOL_FINGER true,
         input_call.input_report_abs ABS_MT_POSITION_X (X : Int),
         input_call.input_report_abs ABS_MT_POSITION_Y (1024 - (rawY : Int))] ∧
      1024 - (rawY : Int) = -3071 := by
  obtain ⟨X, rawY, hX, hY, hc, _⟩ :=
    slot_coordinate_decode usb_asus.zeroed packet_raw_y_4095 rfl 0 (by decide) (by decide)
  have hX7 : X = 7 := by rw [hX]; decide
  have hY4095 : rawY = 4095 := by rw [hY]; decide
  exact ⟨X, rawY, hX7, hY4095, hc, by rw [hY4095]; decide⟩

theorem hweight_five_bits : ∀ t < 32, (hweight_long t > 0 ↔ t ≠ 0) := by
  decide

theorem frame_end_eq (u : urb_in) :
    frame_end (touchpad_package.of_buffer u.int_in_buffer) =
      [input_call.input_report_key BTN_TOUCH (if touch_mask u ≠ 0 then 1 else 0),
       input_call.input_mt_sync_frame,
       input_call.input_mt_report_pointer_emulation false,
       input_call.input_sync] := by
  have h := hweight_five_bits _ (touches_lt u.int_in_buffer)
  unfold frame_end touch_mask
  by_cases h0 : (touchpad_package.of_buffer u.int_in_buffer).touches = 0
  · have : ¬ hweight_long (touchpad_package.of_buffer u.int_in_buffer).touches > 0 := by
      rw [h]; simp [h0]
    rw [if_neg this, if_neg (not_not.mpr h0)]
  · have : hweight_long (touchpad_package.of_buffer u.int_in_buffer).touches > 0 := by
      rw [h]; exact h0
    rw [if_pos this, if_pos h0]

theorem irq_calls_tail (asus : usb_asus) (u : urb_in) (hs : u.status = 0) :
    ∃ body : List input_call, (asus_touchpad_irq asus u).calls = body ++
      [input_call.input_report_key BTN_TOUCH (if touch_mask u ≠ 0 then 1 else 0),
       input_call.input_mt_sync_frame,
       input_call.input_mt_report_pointer_emulation false,
       input_call.input_sync] := by
  refine ⟨(press_edge asus (touchpad_package.of_buffer u.int_in_buffer) u.stray).2 ++
      (slot_loop (touchpad_package.of_buffer u.int_in_buffer) MAX_TOUCHES 0 ++
        (release_edge (press_edge asus (touchpad_package.of_buffer u.int_in_buffer)
            u.stray).1 (touchpad_package.of_buffer u.int_in_buffer)).2), ?_⟩
  rw [irq_calls asus u hs, frame_end_eq]
  simp only [List.append_assoc]

theorem touch_mask_bit (u : urb_in) (i : Nat) (hi : i < MAX_TOUCHES) :
    (touch_mask u).testBit i = (u.int_in_buffer.getD 1 0).testBit (3 + i) := by
  have h5 : i < 5 := hi
  unfold touch_mask touchpad_package.of_buffer u8_at
  simp only
  rw [show (32 : Nat) = 2 ^ 5 from rfl, Nat.testBit_mod_two_pow,
    show (8 : Nat) = 2 ^ 3 from rfl, ← Nat.shiftRight_eq_div_pow, Nat.testBit_shiftRight,
    show (256 : Nat) = 2 ^ 8 from rfl, Nat.testBit_mod_two_pow]
  have h8 : 3 + i < 8 := by omega
  simp [h5, h8]

/-- C6. Touch presence on a completed transfer: bit `i` of `touches` is bit
`3 + i` of byte 1 of the packet, and slot `i < 5` is reported active exactly
when that bit is set (an active slot gets its presence report followed by one
X and one Y, an inactive slot gets the presence report `false` and no
coordinate); the frame ends with the touch flag, 1 when `touches != 0` and 0
when `touches == 0`, followed by the synchronisation; with `touches == 0` all
five slots are inactive and the touch flag is 0, whatever the `buttonPress`
bit and the session state. -/
theorem touch_presence (asus : usb_asus) (u : urb_in) (hs : u.status = 0) :
    (∀ i, i < MAX_TOUCHES →
      ((touch_mask u).testBit i = true → ∃ X Y : Int,
        slot_calls i false (asus_touchpad_irq asus u).calls =
          [input_call.input_mt_report_slot_state MT_TOOL_FINGER true,
           input_call.input_report_abs ABS_MT_POSITION_X X,
           input_call.input_report_abs ABS_MT_POSITION_Y Y]) ∧
      ((touch_mask u).testBit i = false →
        slot_calls i false (asus_touchpad_irq asus u).calls =
          [input_call.input_mt_report_slot_state MT_TOOL_FINGER false])) ∧
    (∃ body : List input_call, (asus_touchpad_irq asus u).calls = body ++
      [input_call.input_report_key BTN_TOUCH (if touch_mask u ≠ 0 then 1 else 0),
       input_call.input_mt_sync_frame,
       input_call.input_mt_report_pointer_emulation false,
       input_call.input_sync]) ∧
    (touch_mask u = 0 →
      (∀ i, i < MAX_TOUCHES → slot_calls i false (asus_touchpad_irq asus u).calls =
        [input_call.input_mt_report_slot_state MT_TOOL_FINGER false]) ∧
      ∃ body : List input_call, (asus_touchpad_irq asus u).calls = body ++
        [input_call.input_report_key BTN_TOUCH 0,
         input_call.input_mt_sync_frame,
         input_call.input_mt_report_pointer_emulation false,
         input_call.input_sync]) ∧
    (touch_mask u ≠ 0 →
      ∃ body : List input_call, (asus_touchpad_irq asus u).calls = body ++
        [input_call.input_report_key BTN_TOUCH 1,
         input_call.input_mt_sync_frame,
         input_call.input_mt_report_pointer_emulation false,
         input_call.input_sync]) ∧
    (∀ i, i < MAX_TOUCHES →
      (touch_mask u).testBit i = (u.int_in_buffer.getD 1 0).testBit (3 + i)) := by
  refine ⟨fun i hi => ⟨fun hb => ?_, fun hb => ?_⟩, irq_calls_tail asus u hs,
    fun h0 => ⟨?_, ?_⟩, fun h1 => ?_, touch_mask_bit u⟩
  · rw [irq_slot_calls_bytes asus u hs i hi, if_pos hb]
    exact ⟨_, _, rfl⟩
  · rw [irq_slot_calls_bytes asus u hs i hi, if_neg (by simp [hb])]
  · intro i hi
    rw [irq_slot_calls_bytes asus u hs i hi, h0]
    simp
  · obtain ⟨body, hbody⟩ := irq_calls_tail asus u hs
    exact ⟨body, by rw [hbody]; simp [h0]⟩
  · obtain ⟨body, hbody⟩ := irq_calls_tail asus u hs
    exact ⟨body, by rw [hbody, if_pos h1]⟩

theorem touch_presence_witness :
    ((∃ X Y : Int,
        slot_calls 0 false (asus_touchpad_irq usb_asus.zeroed packet_raw_y_4095).calls =
          [input_call.input_mt_report_slot_state MT_TOOL_FINGER true,
           input_call.input_report_abs ABS_MT_POSITION_X X,
           input_call.input_report_abs ABS_MT_POSITION_Y Y]) ∧
      (∀ i, 1 ≤ i → i < MAX_TOUCHES →
        slot_calls i false (asus_touchpad_irq usb_asus.zeroed packet_raw_y_4095).calls =
          [input_call.input_mt_report_slot_state MT_TOOL_FINGER false]) ∧
      ∃ body : List input_call,
        (asus_touchpad_irq usb_asus.zeroed packet_raw_y_4095).calls = body ++
          [input_call.input_report_key BTN_TOUCH 1,
           input_call.input_mt_sync_frame,
           input_call.input_mt_report_pointer_emulation false,
           input_call.input_sync]) ∧
    ((∀ i, i < MAX_TOUCHES →
      slot_calls i false (asus_touchpad_irq usb_asus.zeroed packet_press_no_touch).calls =
        [input_call.input_mt_report_slot_state MT_TOOL_FINGER false]) ∧
    ∃ body : List input_call,
      (asus_touchpad_irq usb_asus.zeroed packet_press_no_touch).calls = body ++
        [input_call.input_report_key BTN_TOUCH 0,
         input_call.input_mt_sync_frame,
         input_call.input_mt_report_pointer_emulation false,
         input_call.input_sync]) :=
  ⟨⟨((touch_presence usb_asus.zeroed packet_raw_y_4095 rfl).1 0 (by decide)).1 (by decide),
    fun i h1 h5 => ((touch_presence usb_asus.zeroed packet_raw_y_4095 rfl).1 i h5).2
      (by have h : i < 5 := h5
          interval_cases i <;> decide),
    (touch_presence usb_asus.zeroed packet_raw_y_4095 rfl).2.2.2.1 (by decide)⟩,
   (touch_presence usb_asus.zeroed packet_press_no_touch rfl).2.2.1 (by decide)⟩

theorem report_slot_block (tp : touchpad_package) (i : Nat) :
    ∃ x y : Int, report_slot tp i = slot_block i (tp.touches.testBit i) x y := by
  refine ⟨((((tp.xy.getD i ⟨0, 0, 0, 0, 0⟩).xh <<< 8) |||
      (tp.xy.getD i ⟨0, 0, 0, 0, 0⟩).xl : Nat) : Int),
    1024 - ((((tp.xy.getD i ⟨0, 0, 0, 0, 0⟩).yh <<< 8) |||
      (tp.xy.getD i ⟨0, 0, 0, 0, 0⟩).yl : Nat) : Int), ?_⟩
  unfold report_slot slot_block
  simp only [and_bit_ne_zero]
  cases tp.touches.testBit i <;> simp

theorem press_edge_calls (asus : usb_asus) (tp : touchpad_package) (stray : xy) :
    (press_edge asus tp stray).2 = [] ∨
    ∃ b, (b = BTN_LEFT ∨ b = BTN_RIGHT) ∧
      (press_edge asus tp stray).2 = [input_call.input_report_key b 1] := by
  unfold press_edge
  split
  · right
    simp only
    split
    · exact ⟨BTN_RIGHT, Or.inr rfl, rfl⟩
    · exact ⟨BTN_LEFT, Or.inl rfl, rfl⟩
  · left; rfl

theorem release_edge_calls (asus : usb_asus) (tp : touchpad_package) :
    (release_edge asus tp).2 = [] ∨
    ∃ b, (release_edge asus tp).2 = [input_call.input_report_key b 0] := by
  unfold release_edge
  split
  · right; exact ⟨_, rfl⟩
  · left; rfl

theorem count_sync_slot_block (i : Nat) (a : Bool) (x y : Int) :
    (slot_block i a x y).count input_call.input_sync = 0 := by
  cases a <;> simp [slot_block]

/-- C9. Frame structure on a completed transfer: the calls to the touch-event
sink are an optional press edge, then one update per slot for the slots
0, 1, 2, 3, 4 in this order (selection, presence, and for an active slot its
X and Y), then an optional release edge, then the touch flag, then the frame
synchronisation; `input_sync` occurs once and is the last call. -/
theorem frame_structure (asus : usb_asus) (u : urb_in) (hs : u.status = 0) :
    ∃ (press release : List input_call) (x y : Nat → Int) (touch : Int),
      (asus_touchpad_irq asus u).calls =
        press ++
        slot_block 0 ((touch_mask u).testBit 0) (x 0) (y 0) ++
        slot_block 1 ((touch_mask u).testBit 1) (x 1) (y 1) ++
        slot_block 2 ((touch_mask u).testBit 2) (x 2) (y 2) ++
        slot_block 3 ((touch_mask u).testBit 3) (x 3) (y 3) ++
        slot_block 4 ((touch_mask u).testBit 4) (x 4) (y 4) ++
        release ++
        [input_call.input_report_key BTN_TOUCH touch,
         input_call.input_mt_sync_frame,
         input_call.input_mt_report_pointer_emulation false,
         input_call.input_sync] ∧
      (press = [] ∨ ∃ b, (b = BTN_LEFT ∨ b = BTN_RIGHT) ∧
        press = [input_call.input_report_key b 1]) ∧
      (release = [] ∨ ∃ b, release = [input_call.input_report_key b 0]) ∧
      (asus_touchpad_irq asus u).calls.count input_call.input_sync = 1 ∧
      (asus_touchpad_irq asus u).calls.getLast? = some input_call.input_sync := by
  obtain ⟨x0, y0, h0⟩ := report_slot_block (touchpad_package.of_buffer u.int_in_buffer) 0
  obtain ⟨x1, y1, h1⟩ := report_slot_block (touchpad_package.of_buffer u.int_in_buffer) 1
  obtain ⟨x2, y2, h2⟩ := report_slot_block (touchpad_package.of_buffer u.int_in_buffer) 2
  obtain ⟨x3, y3, h3⟩ := report_slot_block (touchpad_package.of_buffer u.int_in_buffer) 3
  obtain ⟨x4, y4, h4⟩ := report_slot_block (touchpad_package.of_buffer u.int_in_buffer) 4
  have hp := press_edge_calls asus (touchpad_package.of_buffer u.int_in_buffer) u.stray
  have hr := release_edge_calls
    (press_edge asus (touchpad_package.of_buffer u.int_in_buffer) u.stray).1
    (touchpad_package.of_buffer u.int_in_buffer)
  have hc : (asus_touchpad_irq asus u).calls =
      (press_edge asus (touchpad_package.of_buffer u.int_in_buffer) u.stray).2 ++
      slot_block 0 ((touch_mask u).testBit 0) x0 y0 ++
      slot_block 1 ((touch_mask u).testBit 1) x1 y1 ++
      slot_block 2 ((touch_mask u).testBit 2) x2 y2 ++
      slot_block 3 ((touch_mask u).testBit 3) x3 y3 ++
      slot_block 4 ((touch_mask u).testBit 4) x4 y4 ++
      (release_edge (press_edge asus (touchpad_package.of_buffer u.int_in_buffer)
        u.stray).1 (touchpad_package.of_buffer u.int_in_buffer)).2 ++
      [input_call.input_report_key BTN_TOUCH (if touch_mask u ≠ 0 then 1 else 0),
       input_call.input_mt_sync_frame,
       input_call.input_mt_report_pointer_emulation false,
       input_call.input_sync] := by
    rw [irq_calls asus u hs, frame_end_eq]
    simp only [slot_loop, MAX_TOUCHES, h0, h1, h2, h3, h4, touch_mask, List.append_assoc,
      List.append_nil]
  refine ⟨_, _, fun i => [x0, x1, x2, x3, x4].getD i 0, fun i => [y0, y1, y2, y3, y4].getD i 0,
    _, hc, hp, hr, ?_, ?_⟩
  · rw [hc]
    simp only [List.count_append, count_sync_slot_block]
    rcases hp with hp | ⟨b, _, hp⟩ <;> rcases hr with hr | ⟨c, hr⟩ <;> rw [hp, hr] <;> simp
  · rw [hc]
    simp

theorem frame_structure_witness :
    (packet_1500_100 1).status = 0 ∧
    (asus_touchpad_irq usb_asus.zeroed (packet_1500_100 1)).calls.count
      input_call.input_sync = 1 ∧
    (asus_touchpad_irq usb_asus.zeroed (packet_1500_100 1)).calls.getLast? =
      some input_call.input_sync := by
  obtain ⟨_, _, _, _, _, _, _, _, hc, hl⟩ :=
    frame_structure usb_asus.zeroed (packet_1500_100 1) rfl
  exact ⟨rfl, hc, hl⟩

/-- With a touch present the anchor index is the lowest set bit of `touches`,
lies below `MAX_TOUCHES`, and the anchor slot is the slot of the packet at
that index. -/
theorem anchor_of_touches (u : urb_in) (ht : touch_mask u ≠ 0) :
    ∃ idx, idx < MAX_TOUCHES ∧ __ffs (touch_mask u) = some idx ∧
      (touch_mask u).testBit idx = true ∧
      (∀ j < idx, (touch_mask u).testBit j = false) ∧
      (touchpad_package.of_buffer u.int_in_buffer).xy[idx]? =
        some (xy.of_buffer u.int_in_buffer (2 + 5 * idx)) ∧
      anchor_slot (touchpad_package.of_buffer u.int_in_buffer) =
        some (xy.of_buffer u.int_in_buffer (2 + 5 * idx)) := by
  obtain ⟨idx, hlt, hf, hb, hlow⟩ :=
    ffs_five_bits (touch_mask u) (touches_lt u.int_in_buffer) ht
  have hx := xy_getElem u.int_in_buffer idx hlt
  refine ⟨idx, hlt, hf, hb, hlow, hx, ?_⟩
  unfold anchor_slot
  unfold touch_mask at hf
  rw [hf]
  exact hx

/-- C2, as the code has it. Button classification at a press edge: for a
packet with `buttonPress = 1` and `touches != 0` decoded in the Released
state, the anchor slot is the lowest set bit of `touches`, and the button
latched and reported is Right if and only if `x >= 1024` and `rawY < 256`,
otherwise Left, where `x` is the X reported for the anchor slot and `rawY` is
its raw 12-bit Y, of which the frame reports `1024 - rawY` (so Right iff
reported X >= 1024 and reported Y > 768). -/
theorem press_classification (asus : usb_asus) (u : urb_in) (hs : u.status = 0)
    (hp : asus.button_pressed = false) (hb : press_bit u = true) (ht : touch_mask u ≠ 0) :
    ∃ idx x rawY : Nat,
      __ffs (touch_mask u) = some idx ∧ idx < MAX_TOUCHES ∧
      (touch_mask u).testBit idx = true ∧
      (∀ j < idx, (touch_mask u).testBit j = false) ∧
      slot_calls idx false (asus_touchpad_irq asus u).calls =
        [input_call.input_mt_report_slot_state MT_TOOL_FINGER true,
         input_call.input_report_abs ABS_MT_POSITION_X (x : Int),
         input_call.input_report_abs ABS_MT_POSITION_Y (1024 - (rawY : Int))] ∧
      (asus_touchpad_irq asus u).asus =
        ⟨true, if x ≥ 1024 ∧ rawY < 256 then BTN_RIGHT else BTN_LEFT⟩ ∧
      button_edges (asus_touchpad_irq asus u).calls =
        [(if x ≥ 1024 ∧ rawY < 256 then BTN_RIGHT else BTN_LEFT, 1)] ∧
      ((asus_touchpad_irq asus u).asus.button_val = BTN_RIGHT ↔
        (x : Int) ≥ 1024 ∧ 1024 - (rawY : Int) > 768) := by
  obtain ⟨idx, hlt, hf, hbit, hlow, _, ha⟩ := anchor_of_touches u ht
  have hxy : press_xy u =
      (u8_at u.int_in_buffer (2 + 5 * idx) / 16 % 16 * 256
          + u8_at u.int_in_buffer (2 + 5 * idx + 1),
       u8_at u.int_in_buffer (2 + 5 * idx) % 16 * 256
          + u8_at u.int_in_buffer (2 + 5 * idx + 2)) := by
    unfold press_xy
    rw [ha]
    simp only [Option.getD_some, slot_xy, slot_x_eq, slot_y_eq]
  have hst := irq_state asus u hs
  rw [if_pos ⟨hp, hb⟩, hxy] at hst
  have hed := irq_edges asus u hs (fun h => by rw [hp] at h; cases h)
  rw [if_pos ⟨hp, hb⟩, hxy] at hed
  refine ⟨idx, _, _, hf, hlt, hbit, hlow, ?_, hst, hed, ?_⟩
  · rw [irq_slot_calls_bytes asus u hs idx hlt, if_pos hbit]
  · rw [hst]
    simp only [button_for]
    split
    · rename_i h; simp only [true_iff]; omega
    · rename_i h
      constructor
      · intro h2; exact absurd h2 (by decide)
      · intro h2; exact absurd (by omega) h

theorem press_classification_witness :
    ∃ idx x rawY : Nat,
      __ffs (touch_mask (packet_1500_100 1)) = some idx ∧ idx < MAX_TOUCHES ∧
      (touch_mask (packet_1500_100 1)).testBit idx = true ∧
      (∀ j < idx, (touch_mask (packet_1500_100 1)).testBit j = false) ∧
      slot_calls idx false (asus_touchpad_irq usb_asus.zeroed (packet_1500_100 1)).calls =
        [input_call.input_mt_report_slot_state MT_TOOL_FINGER true,
         input_call.input_report_abs ABS_MT_POSITION_X (x : Int),
         input_call.input_report_abs ABS_MT_POSITION_Y (1024 - (rawY : Int))] ∧
      (asus_touchpad_irq usb_asus.zeroed (packet_1500_100 1)).asus =
        ⟨true, if x ≥ 1024 ∧ rawY < 256 then BTN_RIGHT else BTN_LEFT⟩ ∧
      button_edges (asus_touchpad_irq usb_asus.zeroed (packet_1500_100 1)).calls =
        [(if x ≥ 1024 ∧ rawY < 256 then BTN_RIGHT else BTN_LEFT, 1)] ∧
      ((asus_touchpad_irq usb_asus.zeroed (packet_1500_100 1)).asus.button_val = BTN_RIGHT ↔
        (x : Int) ≥ 1024 ∧ 1024 - (rawY : Int) > 768) :=
  press_classification usb_asus.zeroed (packet_1500_100 1) rfl rfl (by decide) (by decide)

/-- C2 as stated fails: the packet with `buttonPress = 1`, slot 0 touched at
raw `(1500, 100)` is reported in the frame at `(1500, 924)`, which the rule
`x >= 1024 and y < 256` on the reported coordinates would make Left, and the
decoder latches Right. -/
theorem press_classification_reported_y_counterexample :
    ¬ (∀ (asus : usb_asus) (u : urb_in), u.status = 0 → asus.button_pressed = false →
        press_bit u = true → touch_mask u ≠ 0 →
        ∀ (idx : Nat) (X Y : Int), __ffs (touch_mask u) = some idx →
          slot_calls idx false (asus_touchpad_irq asus u).calls =
            [input_call.input_mt_report_slot_state MT_TOOL_FINGER true,
             input_call.input_report_abs ABS_MT_POSITION_X X,
             input_call.input_report_abs ABS_MT_POSITION_Y Y] →
          ((asus_touchpad_irq asus u).asus.button_val = BTN_RIGHT ↔ X ≥ 1024 ∧ Y < 256)) := by
  intro h
  have h1 := h usb_asus.zeroed (packet_1500_100 1) rfl rfl (by decide) (by decide)
    0 1500 924 (by decide) (by decide)
  revert h1
  decide

theorem ffs_zero : __ffs 0 = none := by decide

theorem irq_stray_irrelevant (asus : usb_asus) (u : urb_in) (s : xy)
    (ha : anchor_slot (touchpad_package.of_buffer u.int_in_buffer) = some s) (stray : xy) :
    asus_touchpad_irq asus (with_stray u stray) = asus_touchpad_irq asus u := by
  simp [asus_touchpad_irq, with_stray, press_edge, ha]

/-- C10. Anchor lookup safety, with `__ffs` and the slot indexing returning
`Option`: for a packet with `buttonPress = 1` and `touches != 0` decoded in
the Released state the anchor index is defined, is below 5, names a slot whose
presence bit is set, the slot read is one of the five slots of the packet and
the outcome does not depend on memory outside the packet. With `touches == 0`
no anchor index and no anchor slot are defined, and a packet with
`buttonPress = 1` and `touches == 0` in the Released state does take the press
branch: the button it latches is decided by the out-of-packet read. -/
theorem anchor_lookup_safety :
    (∀ (asus : usb_asus) (u : urb_in), u.status = 0 → asus.button_pressed = false →
      press_bit u = true → touch_mask u ≠ 0 →
      ∃ (idx : Nat) (s : xy),
        __ffs (touch_mask u) = some idx ∧ idx < MAX_TOUCHES ∧
        (touch_mask u).testBit idx = true ∧
        (touchpad_package.of_buffer u.int_in_buffer).xy[idx]? = some s ∧
        anchor_slot (touchpad_package.of_buffer u.int_in_buffer) = some s ∧
        ∀ stray : xy,
          asus_touchpad_irq asus (with_stray u stray) = asus_touchpad_irq asus u) ∧
    (∀ u : urb_in, touch_mask u = 0 →
      __ffs (touch_mask u) = none ∧
      anchor_slot (touchpad_package.of_buffer u.int_in_buffer) = none) ∧
    (press_bit packet_press_no_touch = true ∧ touch_mask packet_press_no_touch = 0 ∧
      button_edges (asus_touchpad_irq usb_asus.zeroed packet_press_no_touch).calls =
        [(BTN_LEFT, 1)] ∧
      button_edges (asus_touchpad_irq usb_asus.zeroed
          (with_stray packet_press_no_touch ⟨0, 5, 0xdc, 0x64, 0⟩)).calls =
        [(BTN_RIGHT, 1)]) := by
  refine ⟨?_, ?_, by decide⟩
  · intro asus u _ _ _ ht
    obtain ⟨idx, hlt, hf, hbit, _, hx, ha⟩ := anchor_of_touches u ht
    exact ⟨idx, _, hf, hlt, hbit, hx, ha, irq_stray_irrelevant asus u _ ha⟩
  · intro u h0
    unfold anchor_slot
    unfold touch_mask at h0
    rw [touch_mask, h0, ffs_zero]
    exact ⟨rfl, rfl⟩

theorem anchor_lookup_safety_witness :
    (∃ (idx : Nat) (s : xy),
        __ffs (touch_mask (packet_1500_100 1)) = some idx ∧ idx < MAX_TOUCHES ∧
        (touch_mask (packet_1500_100 1)).testBit idx = true ∧
        (touchpad_package.of_buffer (packet_1500_100 1).int_in_buffer).xy[idx]? = some s ∧
        anchor_slot (touchpad_package.of_buffer (packet_1500_100 1).int_in_buffer) = some s ∧
        ∀ stray : xy,
          asus_touchpad_irq usb_asus.zeroed (with_stray (packet_1500_100 1) stray) =
            asus_touchpad_irq usb_asus.zeroed (packet_1500_100 1)) ∧
    (__ffs (touch_mask packet_press_no_touch) = none ∧
      anchor_slot (touchpad_package.of_buffer packet_press_no_touch.int_in_buffer) = none) :=
  ⟨anchor_lookup_safety.1 usb_asus.zeroed (packet_1500_100 1) rfl rfl (by decide) (by decide),
   anchor_lookup_safety.2.1 packet_press_no_touch (by decide)⟩

theorem paired_release (es : List (Nat × Int)) :
    ∀ (st : Option Nat), paired st es → ∀ (k b : Nat), es[k]? = some (b, 0) →
      (k = 0 ∧ st = some b) ∨ ∃ j, k = j + 1 ∧ es[j]? = some (b, 1) := by
  induction es with
  | nil => intro st _ k b h; simp at h
  | cons e es ih =>
    intro st hp k b hk
    cases k with
    | zero =>
      simp only [List.getElem?_cons_zero, Option.some.injEq] at hk
      cases st with
      | none => simp [paired, hk] at hp
      | some c =>
        simp only [paired, hk] at hp
        exact Or.inl ⟨rfl, by rw [hp.2.1]⟩
    | succ k =>
      simp only [List.getElem?_cons_succ] at hk
      right
      cases st with
      | none =>
        simp only [paired] at hp
        rcases ih _ hp.2 k b hk with ⟨h0, hst⟩ | ⟨j, hj, he⟩
        · refine ⟨0, by omega, ?_⟩
          simp only [Option.some.injEq] at hst
          simp only [List.getElem?_cons_zero, Option.some.injEq]
          exact Prod.ext hst hp.1
        · exact ⟨j + 1, by omega, by simpa using he⟩
      | some c =>
        simp only [paired] at hp
        rcases ih _ hp.2.2 k b hk with ⟨_, hst⟩ | ⟨j, hj, he⟩
        · cases hst
        · exact ⟨j + 1, by omega, by simpa using he⟩

theorem irq_not_completed (asus : usb_asus) (u : urb_in) (hs : u.status ≠ 0) :
    (asus_touchpad_irq asus u).asus = asus ∧ (asus_touchpad_irq asus u).calls = [] := by
  unfold asus_touchpad_irq
  simp only [hs, if_false]
  split <;> simp [resubmit]

theorem irq_run_paired (us : List urb_in) :
    ∀ asus : usb_asus, latched_ok asus →
      paired (latched asus) (run_edges (irq_run asus us)) := by
  induction us with
  | nil => intro asus _; simp [irq_run, run_edges, paired]
  | cons u us ih =>
    intro asus hok
    simp only [irq_run, run_edges]
    by_cases hs : u.status = 0
    · have hnext := ih _ (latched_ok_irq asus u hs hok)
      rw [irq_edges asus u hs (latched_ok_ne_touch asus hok)]
      rw [irq_state asus u hs] at hnext ⊢
      cases hp : asus.button_pressed <;> cases hb : press_bit u <;>
        simp [hp, hb, latched, paired] at hnext ⊢
      · simpa [latched, hp] using hnext
      · exact hnext
      · exact hnext
      · simpa [latched, hp] using hnext
    · have hnext := ih asus hok
      rw [(irq_not_completed asus u hs).1, (irq_not_completed asus u hs).2]
      simpa [button_edges] using hnext

/-- C5. No re-classification while latched: on a completed transfer in a
state with `button_pressed` set, a packet with `buttonPress = 1` leaves the
session state as it is and emits no button edge, whatever its touches and
coordinates; and in every run from a Released state, over transfers of any
status, each release edge directly follows, among the button edges, a press edge of the same button. -/
theorem no_reclassification_while_latched :
    (∀ (asus : usb_asus) (u : urb_in), u.status = 0 → asus.button_pressed = true →
      press_bit u = true →
      (asus_touchpad_irq asus u).asus = asus ∧
      button_edges (asus_touchpad_irq asus u).calls = []) ∧
    (∀ (st : usb_asus) (us : List urb_in) (k b : Nat), st.button_pressed = false →
      (run_edges (irq_run st us))[k]? = some (b, 0) →
      ∃ j, k = j + 1 ∧ (run_edges (irq_run st us))[j]? = some (b, 1)) := by
  refine ⟨?_, ?_⟩
  · intro asus u hs hp hb
    have h := irq_hold asus u hs (by rw [hp, hb])
    refine ⟨h.1, ?_⟩
    rw [h.2, button_edges_append, button_edges_slot_loop, button_edges_frame_end]
    rfl
  · intro st us k b hrel hk
    have hz : latched_ok st := fun h => by rw [hrel] at h; cases h
    rcases paired_release _ _ (irq_run_paired us st hz) k b hk with ⟨_, h⟩ | h
    · simp [latched, hrel] at h
    · exact h

theorem no_reclassification_while_latched_witness :
    ((asus_touchpad_irq ⟨true, BTN_RIGHT⟩ packet_other_finger).asus = ⟨true, BTN_RIGHT⟩ ∧
      button_edges (asus_touchpad_irq ⟨true, BTN_RIGHT⟩ packet_other_finger).calls = []) ∧
    ∃ j, 1 = j + 1 ∧
      (run_edges (irq_run usb_asus.zeroed
        [packet_1500_100 1, packet_other_finger, packet_1500_100 0]))[j]? =
        some (BTN_RIGHT, 1) :=
  ⟨no_reclassification_while_latched.1 ⟨true, BTN_RIGHT⟩ packet_other_finger rfl rfl
      (by decide),
   no_reclassification_while_latched.2 usb_asus.zeroed
      [packet_1500_100 1, packet_other_finger, packet_1500_100 0] 1 BTN_RIGHT rfl (by decide)⟩

theorem u8_at_with_magic (buf : List Nat) (m k : Nat) (hk : 0 < k) :
    u8_at (m :: buf.tail) k = u8_at buf k := by
  obtain ⟨j, rfl⟩ : ∃ j, k = j + 1 := ⟨k - 1, by omega⟩
  cases buf <;> simp [u8_at]

theorem xy_with_magic (buf : List Nat) (m base : Nat) (hb : 0 < base) :
    xy.of_buffer (m :: buf.tail) base = xy.of_buffer buf base := by
  simp only [xy.of_buffer, u8_at_with_magic buf m base hb,
    u8_at_with_magic buf m (base + 1) (by omega), u8_at_with_magic buf m (base + 2) (by omega),
    u8_at_with_magic buf m (base + 3) (by omega), u8_at_with_magic buf m (base + 4) (by omega)]

theorem of_buffer_with_magic (buf : List Nat) (m : Nat) :
    touchpad_package.of_buffer (m :: buf.tail) =
      { touchpad_package.of_buffer buf with magic := m % 256 } := by
  have hx : ∀ i : Nat, xy.of_buffer (m :: buf.tail) (2 + 5 * i) = xy.of_buffer buf (2 + 5 * i) :=
    fun i => xy_with_magic buf m _ (by omega)
  simp only [touchpad_package.of_buffer, u8_at_with_magic buf m 1 (by omega), hx]
  simp [u8_at]

theorem slot_loop_magic (tp : touchpad_package) (m n : Nat) :
    ∀ i, slot_loop { tp with magic := m } n i = slot_loop tp n i := by
  induction n with
  | zero => intro i; rfl
  | succ n ih => intro i; simp only [slot_loop, ih]; rfl

theorem irq_magic (asus : usb_asus) (u : urb_in) (m : Nat) :
    asus_touchpad_irq asus (with_magic u m) = asus_touchpad_irq asus u := by
  unfold asus_touchpad_irq with_magic
  simp only [of_buffer_with_magic, slot_loop_magic]
  rfl

/-- C4 as stated fails: a completed transfer whose packet has magic byte
`0x00` is decoded like any other: the frame is produced and the session state
changes. -/
theorem bad_magic_counterexample :
    ¬ (∀ (asus : usb_asus) (u : urb_in),
        (touchpad_package.of_buffer u.int_in_buffer).magic ≠ 0x5d →
        (asus_touchpad_irq asus u).calls = [] ∧ (asus_touchpad_irq asus u).asus = asus) := by
  intro h
  have h1 := h usb_asus.zeroed packet_bad_magic (by decide)
  revert h1
  decide

/-- C4, as the code has it. The decoder does not look at the magic byte:
replacing it by any value changes nothing in the outcome of the handler, and
every completed transfer produces a frame that ends with the synchronisation
and latches the packet's `buttonPress` bit, whatever the magic byte. No frame
is produced and the session state is left as it was when the transfer did not
complete (`urb->status` non-zero). -/
theorem magic_not_validated :
    (∀ (asus : usb_asus) (u : urb_in) (m : Nat),
      asus_touchpad_irq asus (with_magic u m) = asus_touchpad_irq asus u) ∧
    (∀ (asus : usb_asus) (u : urb_in), u.status = 0 →
      (asus_touchpad_irq asus u).calls.getLast? = some input_call.input_sync ∧
      (asus_touchpad_irq asus u).asus.button_pressed = press_bit u) ∧
    (∀ (asus : usb_asus) (u : urb_in), u.status ≠ 0 →
      (asus_touchpad_irq asus u).calls = [] ∧ (asus_touchpad_irq asus u).asus = asus) := by
  refine ⟨irq_magic, ?_, ?_⟩
  · intro asus u hs
    refine ⟨?_, irq_pressed asus u hs⟩
    obtain ⟨body, hb⟩ := irq_calls_tail asus u hs
    rw [hb]; simp
  · intro asus u hs
    exact ⟨(irq_not_completed asus u hs).2, (irq_not_completed asus u hs).1⟩

theorem magic_not_validated_witness :
    (asus_touchpad_irq usb_asus.zeroed packet_bad_magic =
      asus_touchpad_irq usb_asus.zeroed (packet_1500_100 1)) ∧
    ((asus_touchpad_irq usb_asus.zeroed packet_bad_magic).calls.getLast? =
        some input_call.input_sync ∧
      (asus_touchpad_irq usb_asus.zeroed packet_bad_magic).asus.button_pressed =
        press_bit packet_bad_magic) ∧
    ((asus_touchpad_irq usb_asus.zeroed { packet_bad_magic with status := -71 }).calls = [] ∧
      (asus_touchpad_irq usb_asus.zeroed { packet_bad_magic with status := -71 }).asus =
        usb_asus.zeroed) :=
  ⟨magic_not_validated.1 usb_asus.zeroed (packet_1500_100 1) 0x00,
   magic_not_validated.2.1 usb_asus.zeroed packet_bad_magic rfl,
   magic_not_validated.2.2 usb_asus.zeroed { packet_bad_magic with status := -71 }
     (by decide)⟩

theorem hw_write_eq (ch : ctrl_chan) (log : List ctrl_msg) (buf data : List Nat) :
    hw_write ch log buf data data.length =
      (if ch.ret log.length ≠ (data.length : Int) then - EIO else 0,
       data ++ buf.drop data.length, log ++ [ctrl_msg.write data]) := by
  unfold hw_write memcpy
  by_cases h : ch.ret log.length = (data.length : Int) <;> simp [h]

theorem hw_read_fst (ch : ctrl_chan) (log : List ctrl_msg) (data : List Nat) (size : Nat) :
    (hw_read ch log data size).1 = (if ch.ret log.length ≠ (size : Int) then - EIO else 0) ∧
    (hw_read ch log data size).2.2 = log ++ [ctrl_msg.read size] := by
  unfold hw_read
  by_cases h : ch.ret log.length = (size : Int) <;> simp [h]

/-- The handshake as a cascade over the values returned for the six
transfers that follow the `log.length` transfers already made. -/
theorem hw_cfg_eq (ch : ctrl_chan) (log : List ctrl_msg) (buf : List Nat) :
    asus_touchpad_hw_cfg ch log buf =
      if ch.ret log.length ≠ 5 then (- EIO, log ++ handshake_steps.take 1)
      else if ch.ret (log.length + 1) ≠ 5 then (- EIO, log ++ handshake_steps.take 2)
      else if ch.ret (log.length + 2) ≠ 5 then (- EIO, log ++ handshake_steps.take 3)
      else if ch.ret (log.length + 3) ≠ 5 then (- EIO, log ++ handshake_steps.take 4)
      else if ch.ret (log.length + 4) ≠ 5 then (- EIO, log ++ handshake_steps.take 5)
      else if ch.ret (log.length + 5) ≠ 5 then (- EIO, log ++ handshake_steps.take 6)
      else (0, log ++ handshake_steps) := by
  unfold asus_touchpad_hw_cfg
  simp only [hw_write_eq, hw_read_fst]
  simp only [touchpad_configuration0, touchpad_configuration1, touchpad_configuration2,
    touchpad_configuration3, ASUS_CONFIG_LEN, handshake_steps, EIO, List.length_cons,
    List.length_nil, List.length_append, List.append_assoc, List.take]
  by_cases h0 : ch.ret log.length = 5 <;>
  by_cases h1 : ch.ret (log.length + 1) = 5 <;>
  by_cases h2 : ch.ret (log.length + 2) = 5 <;>
  by_cases h3 : ch.ret (log.length + 3) = 5 <;>
  by_cases h4 : ch.ret (log.length + 4) = 5 <;>
  by_cases h5 : ch.ret (log.length + 5) = 5 <;>
  simp [h0, h1, h2, h3, h4, h5]

/-- C7. Handshake fail-fast, on a fresh control channel whose `ret (k - 1)`
is the length transferred by step `k`: if steps `1 .. k-1` transfer exactly 5
bytes and step `k` (1 <= k <= 6) returns anything else, the handshake returns
`-EIO` after issuing exactly the first `k` steps, each once; it returns 0
exactly when all six steps transfer 5 bytes, and it returns nothing but 0 or
`-EIO`. -/
theorem handshake_fail_fast (ch : ctrl_chan) (buf : List Nat) :
    (∀ k, 1 ≤ k → k ≤ 6 → (∀ j, 1 ≤ j → j < k → ch.ret (j - 1) = 5) →
      ch.ret (k - 1) ≠ 5 →
      asus_touchpad_hw_cfg ch [] buf = (- EIO, handshake_steps.take k)) ∧
    ((asus_touchpad_hw_cfg ch [] buf).1 = 0 ↔ ∀ j, 1 ≤ j → j ≤ 6 → ch.ret (j - 1) = 5) ∧
    ((asus_touchpad_hw_cfg ch [] buf).1 = 0 ∨ (asus_touchpad_hw_cfg ch [] buf).1 = - EIO) := by
  have hcfg := hw_cfg_eq ch [] buf
  simp only [List.length_nil, Nat.zero_add, List.nil_append] at hcfg
  refine ⟨?_, ?_, ?_⟩
  · intro k hk1 hk6 hprev hk
    have p1 := hprev 1 (by omega)
    have p2 := hprev 2 (by omega)
    have p3 := hprev 3 (by omega)
    have p4 := hprev 4 (by omega)
    have p5 := hprev 5 (by omega)
    rw [hcfg]
    interval_cases k
    · simp at hk; simp [hk]
    · simp at hk p1; simp [hk, p1]
    · simp at hk p1 p2; simp [hk, p1, p2]
    · simp at hk p1 p2 p3; simp [hk, p1, p2, p3]
    · simp at hk p1 p2 p3 p4; simp [hk, p1, p2, p3, p4]
    · simp at hk p1 p2 p3 p4 p5; simp [hk, p1, p2, p3, p4, p5]
  · rw [hcfg]
    constructor
    · intro h j hj1 hj6
      by_cases h0 : ch.ret 0 = 5 <;> by_cases h1 : ch.ret 1 = 5 <;>
      by_cases h2 : ch.ret 2 = 5 <;> by_cases h3 : ch.ret 3 = 5 <;>
      by_cases h4 : ch.ret 4 = 5 <;> by_cases h5 : ch.ret 5 = 5 <;>
      simp [h0, h1, h2, h3, h4, h5, EIO] at h
      interval_cases j <;> simp [h0, h1, h2, h3, h4, h5]
    · intro h
      have h0 := h 1 (by omega) (by omega)
      have h1 := h 2 (by omega) (by omega)
      have h2 := h 3 (by omega) (by omega)
      have h3 := h 4 (by omega) (by omega)
      have h4 := h 5 (by omega) (by omega)
      have h5 := h 6 (by omega) (by omega)
      simp at h0 h1 h2 h3 h4 h5
      simp [h0, h1, h2, h3, h4, h5]
  · rw [hcfg]
    by_cases h0 : ch.ret 0 = 5 <;> by_cases h1 : ch.ret 1 = 5 <;>
    by_cases h2 : ch.ret 2 = 5 <;> by_cases h3 : ch.ret 3 = 5 <;>
    by_cases h4 : ch.ret 4 = 5 <;> by_cases h5 : ch.ret 5 = 5 <;>
    simp [h0, h1, h2, h3, h4, h5]

theorem handshake_fail_fast_witness :
    asus_touchpad_hw_cfg short_second_step [] [0, 0, 0, 0, 0] =
      (- EIO, [ctrl_msg.write [0x0d, 0x00, 0x03, 0x01, 0x00],
              ctrl_msg.write [0x0d, 0x05, 0x03, 0x06, 0x01]]) :=
  (handshake_fail_fast short_second_step [0, 0, 0, 0, 0]).1 2 (by decide) (by decide)
    (by intro j h1 h2; have : j = 1 := by omega
        subst this; decide)
    (by decide)

/-- C8. Handshake sequence: on a control channel where every transfer moves
5 bytes the handshake returns 0 and issues, in this order, write
`0d 00 03 01 00`, write `0d 05 03 06 01`, read 5, write `0d 05 03 07 01`,
read 5, write `0d 00 03 01 00`, whatever bytes are read back and whatever the
initial content of the local buffer; a second call right after the first
issues the same six transfers again. -/
theorem handshake_sequence (ch : ctrl_chan) (hch : ∀ n, ch.ret n = 5) (buf buf2 : List Nat) :
    asus_touchpad_hw_cfg ch [] buf =
      (0, [ctrl_msg.write [0x0d, 0x00, 0x03, 0x01, 0x00],
           ctrl_msg.write [0x0d, 0x05, 0x03, 0x06, 0x01],
           ctrl_msg.read 5,
           ctrl_msg.write [0x0d, 0x05, 0x03, 0x07, 0x01],
           ctrl_msg.read 5,
           ctrl_msg.write [0x0d, 0x00, 0x03, 0x01, 0x00]]) ∧
    asus_touchpad_hw_cfg ch (asus_touchpad_hw_cfg ch [] buf).2 buf2 =
      (0, (asus_touchpad_hw_cfg ch [] buf).2 ++ (asus_touchpad_hw_cfg ch [] buf).2) := by
  have h1 : asus_touchpad_hw_cfg ch [] buf = (0, handshake_steps) := by
    rw [hw_cfg_eq]; simp [hch]
  refine ⟨h1, ?_⟩
  rw [h1, hw_cfg_eq]
  simp [hch]

theorem handshake_sequence_witness :
    asus_touchpad_hw_cfg always_five [] [9, 9, 9, 9, 9] =
      (0, [ctrl_msg.write [0x0d, 0x00, 0x03, 0x01, 0x00],
           ctrl_msg.write [0x0d, 0x05, 0x03, 0x06, 0x01],
           ctrl_msg.read 5,
           ctrl_msg.write [0x0d, 0x05, 0x03, 0x07, 0x01],
           ctrl_msg.read 5,
           ctrl_msg.write [0x0d, 0x00, 0x03, 0x01, 0x00]]) ∧
    asus_touchpad_hw_cfg always_five
        (asus_touchpad_hw_cfg always_five [] [9, 9, 9, 9, 9]).2 [1, 2, 3] =
      (0, (asus_touchpad_hw_cfg always_five [] [9, 9, 9, 9, 9]).2 ++
          (asus_touchpad_hw_cfg always_five [] [9, 9, 9, 9, 9]).2) :=
  handshake_sequence always_five (fun _ => rfl) [9, 9, 9, 9, 9] [1, 2, 3]

theorem anchor_reports (u : urb_in) (hs : u.status = 0) (p : Nat × Nat)
    (h : (anchor_slot (touchpad_package.of_buffer u.int_in_buffer)).map slot_xy = some p)
    (st : usb_asus) :
    ∃ idx, __ffs (touch_mask u) = some idx ∧
      slot_calls idx false (asus_touchpad_irq st u).calls =
        [input_call.input_mt_report_slot_state MT_TOOL_FINGER true,
         input_call.input_report_abs ABS_MT_POSITION_X (p.1 : Int),
         input_call.input_report_abs ABS_MT_POSITION_Y (1024 - (p.2 : Int))] := by
  have ht : touch_mask u ≠ 0 := by
    intro h0
    unfold anchor_slot at h
    unfold touch_mask at h0
    rw [h0, ffs_zero] at h
    simp at h
  obtain ⟨idx, hlt, hf, hbit, _, _, ha⟩ := anchor_of_touches u ht
  rw [ha] at h
  simp only [Option.map_some', Option.some.injEq, slot_xy, slot_x_eq, slot_y_eq] at h
  subst h
  refine ⟨idx, hf, ?_⟩
  rw [irq_slot_calls_bytes st u hs idx hlt, if_pos hbit]

/-- C1, as the code has it. Button state machine of the packet decoder on
completed transfers, started in a Released state (`button_pressed = false`):
after each packet the latched flag equals the packet's `buttonPress` bit, and
the button edges emitted at each packet are those of the state machine (one
press when the bit goes 0 to 1, one release when it goes 1 to 0, none while it
stays), each on the left or right button. For the bits `[1,1,1,0,0,1]` with
the anchor slot's raw pair `(x, rawY)` at `(1500, 100)`, which every frame
reports for that slot as `(1500, 924)`, the edges are press(Right) at 0,
release(Right) at 3, press(Right) at 5, and nothing else. -/
theorem button_state_machine (asus : usb_asus) (hrel : asus.button_pressed = false) :
    (∀ us : List urb_in, (∀ u ∈ us, u.status = 0) →
      (irq_run asus us).map (fun r => r.asus.button_pressed) = us.map press_bit ∧
      (irq_run asus us).map (fun r => (button_edges r.calls).map Prod.snd) =
        edges_of false (us.map press_bit) ∧
      ∀ r ∈ irq_run asus us, ∀ e ∈ button_edges r.calls,
        e.1 = BTN_LEFT ∨ e.1 = BTN_RIGHT) ∧
    (∀ us : List urb_in,
      us.map press_bit = [true, true, true, false, false, true] →
      (∀ u ∈ us, u.status = 0 ∧
        (anchor_slot (touchpad_package.of_buffer u.int_in_buffer)).map slot_xy
          = some (1500, 100)) →
      (irq_run asus us).map (fun r => button_edges r.calls) =
        [[(BTN_RIGHT, 1)], [], [], [(BTN_RIGHT, 0)], [], [(BTN_RIGHT, 1)]] ∧
      ∀ u ∈ us, ∀ st : usb_asus, ∃ idx, __ffs (touch_mask u) = some idx ∧
        slot_calls idx false (asus_touchpad_irq st u).calls =
          [input_call.input_mt_report_slot_state MT_TOOL_FINGER true,
           input_call.input_report_abs ABS_MT_POSITION_X 1500,
           input_call.input_report_abs ABS_MT_POSITION_Y 924]) := by
  have hA : latched_ok asus := fun h => by rw [hrel] at h; cases h
  refine ⟨fun us hs => ?_, ?_⟩
  · have h := irq_run_machine us asus hA hs
    rw [hrel] at h
    exact h
  intro us hb hall
  refine ⟨?_, ?_⟩
  · rcases us with _ | ⟨a, _ | ⟨b, _ | ⟨c, _ | ⟨d, _ | ⟨e, _ | ⟨f, _ | ⟨g, us⟩⟩⟩⟩⟩⟩⟩ <;>
      simp at hb
    obtain ⟨ba, bb, bc, bd, be, bf⟩ := hb
    have hR : latched_ok ⟨true, BTN_RIGHT⟩ := fun _ => Or.inr rfl
    have hF : latched_ok ⟨false, BTN_RIGHT⟩ := fun h => by cases h
    have step : ∀ (st : usb_asus) (u : urb_in), u ∈ [a, b, c, d, e, f] → latched_ok st → _ :=
      fun st u hu hok => irq_step_1500_100 st u (hall u hu).1 hok
        (press_xy_of_anchor u _ (hall u hu).2)
    obtain ⟨sa, ea⟩ := step asus a (by simp) hA
    simp [ba, hrel] at sa ea
    obtain ⟨sb, eb⟩ := step ⟨true, BTN_RIGHT⟩ b (by simp) hR
    simp [bb] at sb eb
    obtain ⟨sc, ec⟩ := step ⟨true, BTN_RIGHT⟩ c (by simp) hR
    simp [bc] at sc ec
    obtain ⟨sd, ed⟩ := step ⟨true, BTN_RIGHT⟩ d (by simp) hR
    simp [bd] at sd ed
    obtain ⟨se, ee⟩ := step ⟨false, BTN_RIGHT⟩ e (by simp) hF
    simp [be] at se ee
    obtain ⟨sf, ef⟩ := step ⟨false, BTN_RIGHT⟩ f (by simp) hF
    simp [bf] at sf ef
    simp only [irq_run, List.map_cons, List.map_nil]
    rw [ea, sa, eb, sb, ec, sc, ed, sd, ee, se, ef]
  · intro u hu st
    obtain ⟨idx, hf, hc⟩ := anchor_reports u (hall u hu).1 _ (hall u hu).2 st
    exact ⟨idx, hf, by simpa using hc⟩

theorem button_state_machine_witness :
    ((irq_run usb_asus.zeroed press_sequence).map (fun r => r.asus.button_pressed) =
        press_sequence.map press_bit ∧
      (irq_run usb_asus.zeroed press_sequence).map
          (fun r => (button_edges r.calls).map Prod.snd) =
        edges_of false (press_sequence.map press_bit) ∧
      ∀ r ∈ irq_run usb_asus.zeroed press_sequence, ∀ e ∈ button_edges r.calls,
        e.1 = BTN_LEFT ∨ e.1 = BTN_RIGHT) ∧
    ((irq_run usb_asus.zeroed press_sequence).map (fun r => button_edges r.calls) =
        [[(BTN_RIGHT, 1)], [], [], [(BTN_RIGHT, 0)], [], [(BTN_RIGHT, 1)]] ∧
      ∀ u ∈ press_sequence, ∀ st : usb_asus, ∃ idx, __ffs (touch_mask u) = some idx ∧
        slot_calls idx false (asus_touchpad_irq st u).calls =
          [input_call.input_mt_report_slot_state MT_TOOL_FINGER true,
           input_call.input_report_abs ABS_MT_POSITION_X 1500,
           input_call.input_report_abs ABS_MT_POSITION_Y 924]) :=
  ⟨(button_state_machine usb_asus.zeroed rfl).1 press_sequence (by decide),
   (button_state_machine usb_asus.zeroed rfl).2 press_sequence (by decide) (by decide)⟩

/-- C1 as stated fails on its example: for the `buttonPress` bits
`[1,1,1,0,0,1]` on completed transfers whose anchor slot (slot 0, the lowest
set bit of `touches`) is reported in every frame at the decoded position
`(1500, 100)`, the run from the initial state emits press(Left) at 0,
release(Left) at 3 and press(Left) at 5, not the edges on Right. -/
theorem button_example_decoded_counterexample :
    decoded_sequence.map press_bit = [true, true, true, false, false, true] ∧
    (∀ u ∈ decoded_sequence, u.status = 0 ∧ __ffs (touch_mask u) = some 0) ∧
    (∀ r ∈ irq_run usb_asus.zeroed decoded_sequence,
      slot_calls 0 false r.calls =
        [input_call.input_mt_report_slot_state MT_TOOL_FINGER true,
         input_call.input_report_abs ABS_MT_POSITION_X 1500,
         input_call.input_report_abs ABS_MT_POSITION_Y 100]) ∧
    (irq_run usb_asus.zeroed decoded_sequence).map (fun r => button_edges r.calls) =
      [[(BTN_LEFT, 1)], [], [], [(BTN_LEFT, 0)], [], [(BTN_LEFT, 1)]] ∧
    (irq_run usb_asus.zeroed decoded_sequence).map (fun r => button_edges r.calls) ≠
      [[(BTN_RIGHT, 1)], [], [], [(BTN_RIGHT, 0)], [], [(BTN_RIGHT, 1)]] := by
  decide

end Asustouch

